import Mathlib

/-
Verification of the gocli command-tree execution engine.

The Go package under verification has two source files:
  * a reader/tokenizer file (`readString`, `PARAMETERS_PATTERN`, `parseArgs`), and
  * the command file (`Command`, `AddChild`, `Execute`, `ExitCommand`, `Find`,
    `HelpCommand`, `RecurseParents`, `DefaultHelp`).

Embedding choices, stated once here:
  * Go pointers to `Command` structs are modelled as natural-number ids into a
    heap `State` (a list of `Cmd` records); pointer equality is id equality.
  * The `Run` field (an arbitrary Go closure) is modelled by the inductive
    `RunAct`: either the package-provided `DefaultHelp` action, or an opaque
    host action that writes fixed lines to the output sink.  The `Load` field
    (an arbitrary Go closure documented as "executed when a parent command is
    called", used to lazily populate children) is modelled as a list of child
    ids attached via `AddChild` when the hook fires.
  * `AddChild` panics in Go when a command is added as its own child; panicking
    operations return `Option`/carry a `panicked` result here.
  * Output (`fmt.Printf`/`Println`/`Print`) is a list of written strings, one
    list element per Go print call, with `Println` appending a final newline
    and joining its arguments with a single space.
  * The line source (`readString` over stdin) is a list of `ReadRes` values:
    a successfully read line (newlines already stripped, as `readString` does)
    or a read error carrying the error text.  An exhausted list behaves as an
    endless source of "EOF" read errors, which is what a closed stdin yields.
  * The REPL loop and the recursion into sub-menus are driven by an explicit
    fuel parameter; `Res.fuelOut` marks executions that did not finish within
    the given fuel, and `Res.hang` marks a parent-chain walk that never reached
    a parentless node (the Go code loops forever in that situation).
-/

namespace Gocli

/-- The double-quote character, written via its code point. -/
def dquote : Char := Char.ofNat 34

/-- Go `\s` for the tokenizer pattern: space, tab, newline, form feed,
carriage return. -/
def goIsSpace (c : Char) : Bool :=
  c = ' ' || c = Char.ofNat 9 || c = Char.ofNat 10 || c = Char.ofNat 12 || c = Char.ofNat 13

/-- Index of the last double quote of a character list, if any.  The Go
tokenizer regexp `"((?:[^"]|\")*)"` is greedy and its bracketed group also
matches a double quote, so a match starting at a quote extends to the last
quote of the remaining input; this function finds that position. -/
def lastQuote (cs : List Char) : Option Nat :=
  (cs.reverse.findIdx? (· = dquote)).map (fun i => cs.length - 1 - i)

/-- One pass of Go `rArgs.FindAllStringSubmatch` over the input, producing the
token list that `parseArgs` builds from the matches.  At each position,
leftmost-first semantics try the quoted alternative `"((?:[^"]|\")*)"` first
(which, being greedy with quotes allowed inside the group, spans to the last
quote of the rest of the input) and fall back to `\S+`.  The recursion is
driven by a fuel argument so that the definition is structural; every step
consumes at least one character, so fuel equal to the input length suffices
and the fuel-exhausted case is unreachable from `lexArgs`. -/
def lexArgsF : Nat → List Char → List String
  | _, [] => []
  | 0, _ :: _ => []
  | fuel + 1, c :: rest =>
    if goIsSpace c then lexArgsF fuel rest
    else if c = dquote ∧ (rest.contains dquote) then
      match lastQuote rest with
      | some j => String.mk (rest.take j) :: lexArgsF fuel (rest.drop (j + 1))
      | none => String.mk (List.takeWhile (fun d => !goIsSpace d) (c :: rest)) ::
          lexArgsF fuel (List.dropWhile (fun d => !goIsSpace d) (c :: rest))
    else
      String.mk (List.takeWhile (fun d => !goIsSpace d) (c :: rest)) ::
        lexArgsF fuel (List.dropWhile (fun d => !goIsSpace d) (c :: rest))

/-- Tokenize a whole character list. -/
def lexArgs (cs : List Char) : List String := lexArgsF cs.length cs

/-- Go `parseArgs`: tokenize via the pattern matches; when no match exists at
all (the input has no non-whitespace character) return the whole input as the
single token, as the `matches == nil` branch does. -/
def parseArgs (args : String) : List String :=
  match lexArgs args.data with
  | [] => [args]
  | ts => ts

/-- Drop leading space characters (Go `strings.Trim(input, " ")` removes only
the space character, from both ends). -/
def trimLeadSpaces : List Char → List Char
  | [] => []
  | c :: rest => if c = ' ' then trimLeadSpaces rest else c :: rest

/-- Go `strings.Trim(s, " ")`. -/
def trimSpaces (s : String) : String :=
  String.mk ((trimLeadSpaces ((trimLeadSpaces s.data.reverse)).reverse))

/-- A command parameter (`Parameter` in the Go source). -/
structure Param where
  Name : String := ""
  Help : String := ""
  Optional : Bool := false
deriving DecidableEq

/-- Model of the Go `Run` field: the package-provided `DefaultHelp` action, or
an opaque host action that only writes the given lines to the output sink. -/
inductive RunAct where
  | defaultHelp : RunAct
  | emit : List String → RunAct
deriving DecidableEq

/-- A command node (`Command` in the Go source).  `Run`/`Load` model the two
nullable function fields; `childs`, `parent`, `exit`, `help` are the pointer
fields, as heap ids.  `Load`, when present, carries the ids the hook attaches
via `AddChild` when it fires. -/
structure Cmd where
  Name : String := ""
  Help : String := ""
  Parameters : List Param := []
  Run : Option RunAct := none
  Load : Option (List Nat) := none
  childs : List Nat := []
  parent : Option Nat := none
  exit : Option Nat := none
  help : Option Nat := none
deriving DecidableEq

/-- The heap of command nodes; a Go `*Command` is an index into `nodes`. -/
structure State where
  nodes : List Cmd := []
deriving DecidableEq

/-- Dereference a command pointer. -/
def getCmd (st : State) (i : Nat) : Cmd := st.nodes.getD i {}

/-- Store through a command pointer. -/
def setCmd (st : State) (i : Nat) (c : Cmd) : State := ⟨st.nodes.set i c⟩

/-- Go `AddChild`: for each id in order, panic (modelled as `none`) when the
id equals the parent, otherwise set the child's `parent` back-reference and
append the id to the parent's `childs`. -/
def AddChild (st : State) (c : Nat) : List Nat → Option State
  | [] => some st
  | v :: rest =>
    if v = c then none
    else
      let st1 := setCmd st v { getCmd st v with parent := some c }
      let st2 := setCmd st1 c { getCmd st1 c with childs := (getCmd st1 c).childs ++ [v] }
      AddChild st2 c rest

/-- Go `Find`: first child whose `Name` matches, scanning `childs` in order. -/
def Find (st : State) (c : Nat) (name : String) : Option Nat :=
  (getCmd st c).childs.find? (fun v => (getCmd st v).Name == name)

/-- Go `ExitCommand`: allocate the standard exit node, record it in
`parent.exit`, and attach it via `AddChild` (which cannot panic here because
the node is fresh). -/
def ExitCommand (st : State) (par : Nat) : Option State :=
  let i := st.nodes.length
  let st1 : State := ⟨st.nodes ++ [{ Name := "exit", Help := "Exit from this program" }]⟩
  let st2 := setCmd st1 par { getCmd st1 par with exit := some i }
  AddChild st2 par [i]

/-- Go `HelpCommand`: allocate the standard help node (whose `Run` is
`DefaultHelp`), record it in `parent.help`, and attach it via `AddChild`. -/
def HelpCommand (st : State) (par : Nat) : Option State :=
  let i := st.nodes.length
  let st1 : State := ⟨st.nodes ++
    [{ Name := "help", Help := "Show an overview help",
       Parameters := [{ Name := "command", Help := "Show help of specified command",
                        Optional := true }],
       Run := some .defaultHelp }]⟩
  let st2 := setCmd st1 par { getCmd st1 par with help := some i }
  AddChild st2 par [i]

/-- The inner `for` loop of Go `RecurseParents`, starting at the first
ancestor.  The Go loop only stops when it reaches a parentless node or the
visitor returns true, so on a cyclic parent chain it runs forever; the fuel
argument makes that divergence observable as `none`. -/
def rpLoop (st : State) (f : Nat → Bool → Bool → Bool) : Nat → Nat → Option Bool
  | 0, _ => none
  | fuel + 1, p =>
    match (getCmd st p).parent with
    | none => some (f p false true)
    | some gp => if f p false false then some true else rpLoop st f fuel gp

/-- Go `RecurseParents`: visit the node itself with `first = true`, then walk
the ancestor chain, visiting the parentless end with `last = true`. -/
def RecurseParents (st : State) (fuel : Nat) (cmd : Nat) (f : Nat → Bool → Bool → Bool) :
    Option Bool :=
  if f cmd true false then some true
  else
    match (getCmd st cmd).parent with
    | none => some false
    | some p => rpLoop st f fuel p

/-- The ancestor chain starting at a node (the node first), `none` when no
parentless node is reached within the fuel. -/
def chainFrom (st : State) : Nat → Nat → Option (List Nat)
  | 0, _ => none
  | fuel + 1, p =>
    match (getCmd st p).parent with
    | none => some [p]
    | some gp => (chainFrom st fuel gp).map (p :: ·)

/-- The full visit chain of `RecurseParents`: the node itself followed by its
ancestors up to the parentless end. -/
def parentChain (st : State) (fuel : Nat) (cmd : Nat) : Option (List Nat) :=
  match (getCmd st cmd).parent with
  | none => some [cmd]
  | some p => (chainFrom st fuel p).map (cmd :: ·)

/-- Fuel that covers any acyclic parent chain of the heap. -/
def chainFuel (st : State) : Nat := st.nodes.length + 1

/-- Inner loop of `findUp`; see there. -/
def findUpLoop (st : State) (sel : Nat → Option Nat) : Nat → Nat → Option (Option Nat)
  | 0, _ => none
  | fuel + 1, p =>
    match (getCmd st p).parent with
    | none => some (sel p)
    | some gp =>
      match sel p with
      | some v => some (some v)
      | none => findUpLoop st sel fuel gp

/-- `Execute`'s builtin-resolution walks are `RecurseParents` applied to a
closure `cmd.help != nil` (resp. `cmd.exit`) that, on success, records the
found pointer and attaches it.  This specialisation returns the pointer the
closure found (`some none` when the walk failed) so that the caller can
perform the closure's assignment and `AddChild`, which in Go happen at the
moment the closure returns true, i.e. exactly once at the end of the walk. -/
def findUp (st : State) (fuel : Nat) (cmd : Nat) (sel : Nat → Option Nat) :
    Option (Option Nat) :=
  match sel cmd with
  | some v => some (some v)
  | none =>
    match (getCmd st cmd).parent with
    | none => some none
    | some p => findUpLoop st sel fuel p

/-- The prompt-building closure of `Execute`'s loop, run over the ancestor
chain exactly as `RecurseParents` does: the current node has already set the
accumulator to `name ++ ")>"`; each intermediate ancestor prepends
`name ++ "/"`, and the parentless end prepends `name ++ "("`. -/
def promptLoop (st : State) : Nat → Nat → String → Option String
  | 0, _, _ => none
  | fuel + 1, p, acc =>
    match (getCmd st p).parent with
    | none => some ((getCmd st p).Name ++ "(" ++ acc)
    | some gp => promptLoop st fuel gp ((getCmd st p).Name ++ "/" ++ acc)

/-- The prompt printed at the top of each loop iteration: `name ++ ">"` for a
parentless node, the breadcrumb built by the `RecurseParents` walk otherwise. -/
def promptOf (st : State) (self : Nat) : Option String :=
  match (getCmd st self).parent with
  | none => some ((getCmd st self).Name ++ ">")
  | some p => promptLoop st (chainFuel st) p ((getCmd st self).Name ++ ")>")

/-- Pad a string on the right with spaces to the given width, as Go
`fmt.Sprintf` with a `%-Ns` verb does. -/
def padRight (s : String) (w : Nat) : String :=
  s ++ String.mk (List.replicate (w - s.length) ' ')

/-- The running maximum of name lengths over a child list, as `DefaultHelp`
computes it. -/
def maxNameLen (st : State) (ids : List Nat) : Nat :=
  ids.foldl (fun m v => max m (getCmd st v).Name.length) 0

/-- Go `DefaultHelp`, returning the list of print calls it performs, or `none`
for the nil-pointer dereference that occurs when the help node has no parent
and a branch that uses the parent is taken.  `fmt.Println(x, "\n")` writes
`x ++ " \n\n"`; `fmt.Printf("The command %s cannot be found", ...)` writes no
trailing newline. -/
def DefaultHelp (st : State) (cmd : Nat) (args : List String) : Option (List String) :=
  if args.length > 1 then
    some ["The help command cannot take more than 1 parameter\n"]
  else if args.length == 0 then
    match (getCmd st cmd).parent with
    | none => none
    | some par =>
      let kids := (getCmd st par).childs
      let ml := maxNameLen st kids
      some (((getCmd st par).Help ++ " \n\n") ::
        "Available commands:\n" ::
        kids.map (fun v => "  " ++ padRight (getCmd st v).Name ml ++ "  " ++
          (getCmd st v).Help ++ "\n"))
  else
    match (getCmd st cmd).parent with
    | none => none
    | some par =>
      match Find st par (args.headD "") with
      | none => some ["The command " ++ args.headD "" ++ " cannot be found"]
      | some sel =>
        let ps := (getCmd st sel).Parameters
        if ps.length == 0 then some [(getCmd st sel).Help ++ "\n"]
        else
          let ml := ps.foldl (fun m p => max m p.Name.length) 0
          some (((getCmd st sel).Help ++ "\n") ::
            "\nAvailable parameters:\n" ::
            ps.map (fun p => "  " ++ padRight p.Name ml ++ "  " ++ p.Help ++ "\n"))

/-- Invoke a `Run` action: `DefaultHelp` runs the package helper; a host
action writes its fixed lines.  `none` models a Go panic inside the action. -/
def runAction : RunAct → State → Nat → List String → Option (List String)
  | .defaultHelp, st, cmd, args => DefaultHelp st cmd args
  | .emit ls, _, _, _ => some ls

/-- Result of an `Execute` call: normal return (`nil` error), an error return,
a Go panic, a diverging parent-chain walk, or fuel exhaustion of the model. -/
inductive Res where
  | ok : Res
  | errMsg : String → Res
  | panicked : Res
  | hang : Res
  | fuelOut : Res
deriving DecidableEq

/-- One `readString` outcome: a line (already newline-stripped) or an error. -/
inductive ReadRes where
  | line : String → ReadRes
  | readErr : String → ReadRes
deriving DecidableEq

/-- The observable outcome of an `Execute` call: everything written to the
output sink, the final heap, the unconsumed part of the line source, and the
result. -/
structure ExecOut where
  out : List String
  st : State
  ins : List ReadRes
  res : Res
deriving DecidableEq

/-- Prefix earlier output onto an outcome. -/
def ExecOut.prepend (o : List String) (r : ExecOut) : ExecOut :=
  { r with out := o ++ r.out }

/-- Run the `Load` hook if present (Go `if self.Load != nil { self.Load(self) }`),
with the hook modelled as attaching its ids via `AddChild`. -/
def doLoad (st : State) (self : Nat) : Option State :=
  match (getCmd st self).Load with
  | none => some st
  | some ids => AddChild st self ids

/-- Outcome of one builtin-resolution block of `Execute`. -/
inductive StRes where
  | okSt : State → StRes
  | panicked : StRes
  | hang : StRes
deriving DecidableEq

/-- The first resolution block of `Execute`: walk `self` and its ancestors for
a node with a non-nil `help`; when found, record it in `self.help` and
`AddChild` it under `self`; otherwise synthesize one via `HelpCommand`. -/
def resolveHelp (st : State) (self : Nat) : StRes :=
  match findUp st (chainFuel st) self (fun c => (getCmd st c).help) with
  | none => .hang
  | some (some hh) =>
    let st1 := setCmd st self { getCmd st self with help := some hh }
    match AddChild st1 self [hh] with
    | none => .panicked
    | some st2 => .okSt st2
  | some none =>
    match HelpCommand st self with
    | none => .panicked
    | some st2 => .okSt st2

/-- The second resolution block of `Execute`, identical to `resolveHelp` but
for the `exit` pointer and `ExitCommand`. -/
def resolveExit (st : State) (self : Nat) : StRes :=
  match findUp st (chainFuel st) self (fun c => (getCmd st c).exit) with
  | none => .hang
  | some (some ee) =>
    let st1 := setCmd st self { getCmd st self with exit := some ee }
    match AddChild st1 self [ee] with
    | none => .panicked
    | some st2 => .okSt st2
  | some none =>
    match ExitCommand st self with
    | none => .panicked
    | some st2 => .okSt st2

/-- What one loop iteration decides to do after its single read. -/
inductive StepRes where
  | done : List String → State → List ReadRes → Res → StepRes
  | again : List String → State → List ReadRes → StepRes
  | enter : List String → State → Nat → List ReadRes → StepRes
deriving DecidableEq

/-- The single read of a loop iteration: Go `readString` returns the next line
or an error; a closed/exhausted source yields `io.EOF` on every read. -/
def headRead : List ReadRes → ReadRes × List ReadRes
  | [] => (.readErr "EOF", [])
  | r :: rest => (r, rest)

/-- The body of `Execute`'s `for` loop, up to but excluding the recursive call
into a sub-menu: print the prompt, read one line, print-and-continue on a read
error, skip blank lines, tokenize, resolve the first token among `self`'s
children, and dispatch (invalid-command message / `break` on the exit node /
"Missing action" error / recurse into a sub-menu / invoke the `Run` action). -/
def loopStep (st : State) (self : Nat) (ins : List ReadRes) : StepRes :=
  match promptOf st self with
  | none => .done [] st ins .hang
  | some pr =>
    match headRead ins with
    | (.readErr e, rest) => .again [pr, "error: " ++ e ++ "\n"] st rest
    | (.line s, rest) =>
      let input := trimSpaces s
      if input = "" then .again [pr] st rest
      else
        match parseArgs input with
        | [] => .done [pr] st rest .panicked
        | tok :: args =>
          match Find st self tok with
          | none =>
            match (getCmd st self).help with
            | none => .done [pr] st rest .panicked
            | some hn =>
              .again [pr, "Invalid command, type " ++ (getCmd st hn).Name ++
                " for available commands\n"] st rest
          | some sc =>
            if (getCmd st self).exit = some sc then .done [pr] st rest .ok
            else if (getCmd st sc).Run.isNone ∧ (getCmd st sc).Load.isNone ∧
                (getCmd st sc).childs = [] then
              .done [pr] st rest
                (.errMsg ("Missing action for " ++ (getCmd st sc).Name ++ " command"))
            else
              match (getCmd st sc).Run with
              | none => .enter [pr] st sc rest
              | some act =>
                match runAction act st sc args with
                | none => .done [pr] st rest .panicked
                | some outs => .again (pr :: outs) st rest

/-- Go `Execute`, fuel-indexed.  `run fuel true …` is an entry into `Execute`
(validation, `Load`, builtin resolution, then the loop); `run fuel false …` is
the loop itself, one iteration per fuel unit, recursing into sub-menus through
an entry call.  Entry consumes one fuel unit so that the recursion is
structural in the fuel. -/
def run : Nat → Bool → State → Nat → List ReadRes → ExecOut
  | 0, _, st, _, ins => ⟨[], st, ins, .fuelOut⟩
  | fuel + 1, true, st, self, ins =>
    let c := getCmd st self
    if c.Run.isSome ∧ c.childs ≠ [] then
      ⟨[], st, ins, .errMsg "Current command should not define an action and has childs"⟩
    else if c.Load.isSome ∧ c.Run.isSome then
      ⟨[], st, ins, .errMsg "Only Run or Load functions should be defined, not both"⟩
    else
      match doLoad st self with
      | none => ⟨[], st, ins, .panicked⟩
      | some st1 =>
        if (getCmd st1 self).Run.isNone ∧ (getCmd st1 self).childs = [] then
          ⟨[], st1, ins, .errMsg "Current command has neither action and childs"⟩
        else
          match resolveHelp st1 self with
          | .panicked => ⟨[], st1, ins, .panicked⟩
          | .hang => ⟨[], st1, ins, .hang⟩
          | .okSt st2 =>
            match resolveExit st2 self with
            | .panicked => ⟨[], st2, ins, .panicked⟩
            | .hang => ⟨[], st2, ins, .hang⟩
            | .okSt st3 => run fuel false st3 self ins
  | fuel + 1, false, st, self, ins =>
    match loopStep st self ins with
    | .done o st1 rest res => ⟨o, st1, rest, res⟩
    | .again o st1 rest => ExecOut.prepend o (run fuel false st1 self rest)
    | .enter o st1 sub rest =>
      let rr := run fuel true st1 sub rest
      match rr.res with
      | .ok => ExecOut.prepend (o ++ rr.out) (run fuel false rr.st self rr.ins)
      | _ => ExecOut.prepend o rr

/-- Go `Execute` on a command node. -/
def Execute (fuel : Nat) (st : State) (self : Nat) (ins : List ReadRes) : ExecOut :=
  run fuel true st self ins

/-- The `for` loop of `Execute`. -/
def execLoop (fuel : Nat) (st : State) (self : Nat) (ins : List ReadRes) : ExecOut :=
  run fuel false st self ins

/-! ### Parent-chain infrastructure -/

/-- The `(first, last)` flags `RecurseParents` passes to the visits after the
first one: intermediate ancestors get `(false, false)`, the parentless end
gets `(false, true)`. -/
def midFlags : List Nat → List (Nat × Bool × Bool)
  | [] => []
  | [c] => [(c, false, true)]
  | c :: rest => (c, false, false) :: midFlags rest

/-- The full flagged visit sequence of `RecurseParents`: the node itself with
`(true, false)`, then the ancestors. -/
def visitFlags : List Nat → List (Nat × Bool × Bool)
  | [] => []
  | c :: rest => (c, true, false) :: midFlags rest

/-- Each element of the list is the parent of the one before it. -/
def parentLinkedB (st : State) : List Nat → Bool
  | a :: b :: rest => ((getCmd st a).parent == some b) && parentLinkedB st (b :: rest)
  | _ => true

/-- An acyclic three-node heap: node 0's parent is 1, node 1's parent is 2,
node 2 is the parentless root, so 2 is an ancestor of 0. -/
def stAcyc : State := ⟨[{ parent := some 1 }, { parent := some 2 }, {}]⟩

/-- `stAcyc` after `AddChild` attaches node 0's ancestor 2 as a child of 0:
node 2's parent back-reference now points to 0, closing a parent-chain cycle
0 → 1 → 2 → 0. -/
def stCyc : State :=
  ⟨[{ parent := some 1, childs := [2] }, { parent := some 2 }, { parent := some 0 }]⟩

/-- Slash-joined path, per the breadcrumb description. -/
def joinSlash : List String → String
  | [] => ""
  | [x] => x
  | x :: rest => x ++ "/" ++ joinSlash rest

/-- A heap for witnesses: root 0 owns the help node 1 and the sub-menu 2,
which has the leaf child 3; entering node 2 inherits help node 1 from
its ancestor 0. -/
def stHelpDemo : State :=
  ⟨[{ Name := "root", childs := [1, 2], help := some 1 },
    { Name := "help", parent := some 0, Run := some .defaultHelp },
    { Name := "m", parent := some 0, childs := [3] },
    { Name := "x", parent := some 2, Run := some (.emit []) }]⟩

/-- A minimal runnable heap: root 0 with one leaf child 1 (`status`, which
prints `OK`).  On first entry `Execute` synthesizes help node 2 and exit
node 3 under the root. -/
def stDemo : State :=
  ⟨[{ Name := "root", childs := [1] },
    { Name := "status", Run := some (.emit ["OK\n"]), parent := some 0 }]⟩

theorem chainFrom_ne_nil {st : State} {fuel p : Nat} {l : List Nat}
    (h : chainFrom st fuel p = some l) : l ≠ [] := by
  induction fuel generalizing p l with
  | zero => simp [chainFrom] at h
  | succ n ih =>
    unfold chainFrom at h
    cases hp : (getCmd st p).parent with
    | none => rw [hp] at h; simp at h; simp [← h]
    | some gp =>
      rw [hp] at h
      simp only [Option.map_eq_some'] at h
      obtain ⟨l', _, rfl⟩ := h
      simp

theorem chainFrom_head {st : State} {fuel p : Nat} {l : List Nat}
    (h : chainFrom st fuel p = some l) : l.head? = some p := by
  cases fuel with
  | zero => simp [chainFrom] at h
  | succ n =>
    unfold chainFrom at h
    cases hp : (getCmd st p).parent with
    | none => rw [hp] at h; simp at h; simp [← h]
    | some gp =>
      rw [hp] at h
      simp only [Option.map_eq_some'] at h
      obtain ⟨l', _, rfl⟩ := h
      simp

theorem midFlags_cons {p : Nat} {l : List Nat} (h : l ≠ []) :
    midFlags (p :: l) = (p, false, false) :: midFlags l := by
  cases l with
  | nil => exact absurd rfl h
  | cons b rest => rfl

theorem rpLoop_eq_any {st : State} {fuel p : Nat} {l : List Nat}
    (f : Nat → Bool → Bool → Bool) (h : chainFrom st fuel p = some l) :
    rpLoop st f fuel p = some ((midFlags l).any fun t => f t.1 t.2.1 t.2.2) := by
  induction fuel generalizing p l with
  | zero => simp [chainFrom] at h
  | succ n ih =>
    unfold chainFrom at h
    unfold rpLoop
    cases hp : (getCmd st p).parent with
    | none =>
      rw [hp] at h; simp at h
      subst h
      simp [midFlags]
    | some gp =>
      rw [hp] at h
      simp only [Option.map_eq_some'] at h
      obtain ⟨l', hl', rfl⟩ := h
      rw [midFlags_cons (chainFrom_ne_nil hl')]
      simp only [List.any_cons]
      cases hfp : f p false false with
      | true => simp
      | false => simpa using ih hl'

theorem chainFrom_last {st : State} {fuel p : Nat} {l : List Nat}
    (h : chainFrom st fuel p = some l) :
    ∃ r, l.getLast? = some r ∧ (getCmd st r).parent = none := by
  induction fuel generalizing p l with
  | zero => simp [chainFrom] at h
  | succ n ih =>
    unfold chainFrom at h
    cases hp : (getCmd st p).parent with
    | none =>
      rw [hp] at h; simp at h
      exact ⟨p, by simp [← h], by simpa [← h] using hp⟩
    | some gp =>
      rw [hp] at h
      simp only [Option.map_eq_some'] at h
      obtain ⟨l', hl', rfl⟩ := h
      obtain ⟨r, hr, hrp⟩ := ih hl'
      refine ⟨r, ?_, hrp⟩
      cases l' with
      | nil => exact absurd rfl (chainFrom_ne_nil hl')
      | cons b rest => simpa using hr

theorem chainFrom_linked {st : State} {fuel p : Nat} {l : List Nat}
    (h : chainFrom st fuel p = some l) : parentLinkedB st l = true := by
  induction fuel generalizing p l with
  | zero => simp [chainFrom] at h
  | succ n ih =>
    unfold chainFrom at h
    cases hp : (getCmd st p).parent with
    | none => rw [hp] at h; simp at h; simp [← h, parentLinkedB]
    | some gp =>
      rw [hp] at h
      simp only [Option.map_eq_some'] at h
      obtain ⟨l', hl', rfl⟩ := h
      have hh := chainFrom_head hl'
      cases l' with
      | nil => exact absurd rfl (chainFrom_ne_nil hl')
      | cons b rest =>
        simp at hh
        subst hh
        simp [parentLinkedB, hp, ih hl']

end Gocli

namespace Gocli

/-! ### Claim theorems -/

/-- Claim C5 counterexample: the claim asserts that for each double-quoted
substring the content between that pair of quotes becomes one token, including
for lines with more than one quoted pair.  On the line `x "a b" "c d"` that
would give the tokens `[x, a b, c d]`, but the greedy pattern spans from the
first quote to the last one, producing `[x, a b" "c d]`. -/
theorem C5_counterexample :
    parseArgs "x \"a b\" \"c d\"" ≠ ["x", "a b", "c d"] ∧
    parseArgs "x \"a b\" \"c d\"" = ["x", "a b\" \"c d"] := by
  constructor
  · decide
  · decide

/-- Claim C5 amended: tokens are runs of non-whitespace characters or, for a
token starting at a double quote that has a later closing quote, the content
between that opening quote and the last double quote of the remaining input,
quotes stripped.  On a line with a single quoted pair this is the content of
that pair — `a "b c" d` yields exactly `[a, b c, d]` — but a line with more
than one quoted pair merges everything between its first and last quote into
one token; an unmatched quote falls back to non-whitespace runs, and the
tokenizer always yields at least one token (no crash). -/
theorem C5_tokenizer_amended :
    parseArgs "a \"b c\" d" = ["a", "b c", "d"] ∧
    parseArgs "single" = ["single"] ∧
    parseArgs "x \"a b\" \"c d\"" = ["x", "a b\" \"c d"] ∧
    parseArgs "a \"b c" = ["a", "\"b", "c"] ∧
    ∀ s : String, parseArgs s ≠ [] := by
  refine ⟨by decide, by decide, by decide, by decide, fun s => ?_⟩
  unfold parseArgs
  cases h : lexArgs s.data with
  | nil => simp
  | cons a ts => simp

/-- Claim C4: given that the parent chain of `cmd` reaches a parentless root
within the fuel (`parentChain … = some ch`), the walk `RecurseParents` visits
exactly the nodes of `ch`: `cmd` itself first with `first = true`, then each
ancestor in order (each list element is the parent of its predecessor), the
parentless root last with `last = true`; the walk returns true exactly when
some visit (scanning in order, stopping at the first success) returns true,
and false when the root is reached with all visits false — in particular a
chain of length one, `cmd` itself the root, yields `some (f cmd true false)`,
which is `some false` for a never-succeeding visitor. -/
theorem C4_RecurseParents_visits (st : State) (fuel cmd : Nat)
    (f : Nat → Bool → Bool → Bool) (ch : List Nat)
    (h : parentChain st fuel cmd = some ch) :
    ch.head? = some cmd ∧
    parentLinkedB st ch = true ∧
    (∃ r, ch.getLast? = some r ∧ (getCmd st r).parent = none) ∧
    RecurseParents st fuel cmd f =
      some ((visitFlags ch).any fun t => f t.1 t.2.1 t.2.2) := by
  unfold parentChain at h
  unfold RecurseParents
  cases hp : (getCmd st cmd).parent with
  | none =>
    rw [hp] at h
    simp at h
    subst h
    refine ⟨rfl, rfl, ⟨cmd, rfl, hp⟩, ?_⟩
    cases hf : f cmd true false <;> simp [hf, visitFlags, midFlags]
  | some p =>
    rw [hp] at h
    simp only [Option.map_eq_some'] at h
    obtain ⟨l, hl, rfl⟩ := h
    have hne := chainFrom_ne_nil hl
    have hhead := chainFrom_head hl
    refine ⟨rfl, ?_, ?_, ?_⟩
    · cases l with
      | nil => exact absurd rfl hne
      | cons b rest =>
        simp at hhead
        subst hhead
        simp [parentLinkedB, hp, chainFrom_linked hl]
    · obtain ⟨r, hr, hrp⟩ := chainFrom_last hl
      refine ⟨r, ?_, hrp⟩
      cases l with
      | nil => exact absurd rfl hne
      | cons b rest => simpa using hr
    · cases hf : f cmd true false with
      | true => simp [hf, visitFlags]
      | false =>
        rw [if_neg (by simp [hf])]
        simp only [visitFlags, List.any_cons, hf]
        rw [rpLoop_eq_any f hl]
        simp

/-- Claim C4 witness: a concrete three-node chain 0 → 1 → 2 (2 parentless)
with a visitor that succeeds only on node 1. -/
theorem C4_RecurseParents_visits_witness :
    ([0, 1, 2] : List Nat).head? = some 0 ∧
    parentLinkedB ⟨[{ parent := some 1 }, { parent := some 2 }, {}]⟩ [0, 1, 2] = true ∧
    (∃ r, ([0, 1, 2] : List Nat).getLast? = some r ∧
      (getCmd ⟨[{ parent := some 1 }, { parent := some 2 }, {}]⟩ r).parent = none) ∧
    RecurseParents ⟨[{ parent := some 1 }, { parent := some 2 }, {}]⟩ 5 0
        (fun c _ _ => c == 1) =
      some ((visitFlags [0, 1, 2]).any fun t => (fun c _ _ => c == 1) t.1 t.2.1 t.2.2) :=
  C4_RecurseParents_visits ⟨[{ parent := some 1 }, { parent := some 2 }, {}]⟩ 5 0
    (fun c _ _ => c == 1) [0, 1, 2] (by decide)

end Gocli

namespace Gocli

theorem rpLoop_stCyc_none (fuel p : Nat) (hp : p = 0 ∨ p = 1 ∨ p = 2) :
    rpLoop stCyc (fun _ _ _ => false) fuel p = none := by
  induction fuel generalizing p with
  | zero => rfl
  | succ n ih =>
    rcases hp with rfl | rfl | rfl
    · exact ih 1 (by simp)
    · exact ih 2 (by simp)
    · exact ih 0 (by simp)

/-- Claim C10: `RecurseParents` terminates (within the given fuel, returning
`some` result) for every node whose parent chain reaches a parentless root:
`parentChain … = some ch` expresses exactly that the chain is finite and
acyclic within the fuel.  That precondition is not enforced by composition:
`AddChild` rejects only the direct case (attaching a node to itself panics,
modelled as `none`), while attaching node 0's ancestor 2 — witnessed by
`parentChain stAcyc … = some [0, 1, 2]` — as a child of 0 is accepted and
produces a heap whose parent chain from 0 cycles, on which `RecurseParents`
with an always-continue visitor (as used for prompt construction) returns
`none` for every fuel, i.e. the Go walk never terminates. -/
theorem C10_termination_and_cycle :
    (∀ (st : State) (fuel cmd : Nat) (f : Nat → Bool → Bool → Bool) (ch : List Nat),
      parentChain st fuel cmd = some ch → RecurseParents st fuel cmd f ≠ none) ∧
    AddChild stAcyc 0 [0] = none ∧
    parentChain stAcyc (chainFuel stAcyc) 0 = some [0, 1, 2] ∧
    AddChild stAcyc 0 [2] = some stCyc ∧
    (∀ fuel, RecurseParents stCyc fuel 0 (fun _ _ _ => false) = none) := by
  refine ⟨?_, by decide, by decide, by decide, ?_⟩
  · intro st fuel cmd f ch h
    have h4 := (C4_RecurseParents_visits st fuel cmd f ch h).2.2.2
    rw [h4]
    simp
  · intro fuel
    unfold RecurseParents
    simp only [Bool.false_eq_true, if_false]
    rw [show (getCmd stCyc 0).parent = some 1 from rfl]
    exact rpLoop_stCyc_none fuel 1 (by simp)

/-- Claim C10 witness: the termination half applied to the concrete acyclic
heap `stAcyc` at node 0. -/
theorem C10_termination_and_cycle_witness :
    RecurseParents stAcyc 5 0 (fun _ _ _ => false) ≠ none :=
  C10_termination_and_cycle.1 stAcyc 5 0 (fun _ _ _ => false) [0, 1, 2] (by decide)

end Gocli

namespace Gocli

theorem joinSlash_cons {x : String} {front : List String} (h : front ≠ []) :
    joinSlash (x :: front) = x ++ "/" ++ joinSlash front := by
  cases front with
  | nil => exact absurd rfl h
  | cons y rest => rfl

theorem promptLoop_eq {st : State} {fuel p : Nat} {l : List Nat}
    (h : chainFrom st fuel p = some l) (front : List String) (hf : front ≠ []) :
    promptLoop st fuel p (joinSlash front ++ ")>") =
      some ((getCmd st (l.getLast?.getD 0)).Name ++ "(" ++
        joinSlash ((l.dropLast.reverse.map fun c => (getCmd st c).Name) ++ front) ++ ")>") := by
  induction fuel generalizing p l front with
  | zero => simp [chainFrom] at h
  | succ n ih =>
    unfold chainFrom at h
    cases hp : (getCmd st p).parent with
    | none =>
      rw [hp] at h
      simp at h
      subst h
      have red : promptLoop st (n + 1) p (joinSlash front ++ ")>") =
          some ((getCmd st p).Name ++ "(" ++ (joinSlash front ++ ")>")) := by
        unfold promptLoop
        rw [hp]
      rw [red]
      simp [String.append_assoc]
    | some gp =>
      rw [hp] at h
      simp only [Option.map_eq_some'] at h
      obtain ⟨l', hl', rfl⟩ := h
      have hne := chainFrom_ne_nil hl'
      have step : (getCmd st p).Name ++ "/" ++ (joinSlash front ++ ")>") =
          joinSlash ((getCmd st p).Name :: front) ++ ")>" := by
        rw [joinSlash_cons hf]
        simp [String.append_assoc]
      have red : promptLoop st (n + 1) p (joinSlash front ++ ")>") =
          promptLoop st n gp ((getCmd st p).Name ++ "/" ++ (joinSlash front ++ ")>")) := by
        conv_lhs => rw [promptLoop]
        rw [hp]
      rw [red, step, ih hl' ((getCmd st p).Name :: front) (by simp)]
      cases l' with
      | nil => exact absurd rfl hne
      | cons b rest =>
        simp [List.dropLast_cons₂, List.reverse_cons, List.map_append]

/-- Claim C6: `promptOf` is the string printed at the top of every loop
iteration (every `loopStep` output list starts with it).  For a parentless
(root) node it is the node's name followed by `>`.  For a non-root node whose
visit chain (itself first, root last) is `ch`, it is the breadcrumb built by
the `RecurseParents` walk: the root's name, an opening parenthesis, the names
of the remaining chain nodes from the outermost ancestor down to the current
node joined with slashes, then `)>`; a node three levels deep under root
`A/B/C` prompts exactly `A(B/C)>` (see the witness). -/
theorem C6_prompt (st : State) (self : Nat) (ch : List Nat)
    (h : parentChain st (chainFuel st) self = some ch) :
    ((getCmd st self).parent = none →
      promptOf st self = some ((getCmd st self).Name ++ ">")) ∧
    (2 ≤ ch.length →
      promptOf st self = some ((getCmd st (ch.getLast?.getD 0)).Name ++ "(" ++
        joinSlash (ch.dropLast.reverse.map fun c => (getCmd st c).Name) ++ ")>")) := by
  constructor
  · intro hp
    unfold promptOf
    rw [hp]
  · intro hlen
    unfold parentChain at h
    cases hp : (getCmd st self).parent with
    | none =>
      rw [hp] at h
      simp at h
      subst h
      simp at hlen
    | some p =>
      rw [hp] at h
      simp only [Option.map_eq_some'] at h
      obtain ⟨l, hl, rfl⟩ := h
      have hne := chainFrom_ne_nil hl
      have red : promptOf st self =
          promptLoop st (chainFuel st) p (joinSlash [(getCmd st self).Name] ++ ")>") := by
        unfold promptOf
        rw [hp]
        rfl
      rw [red, promptLoop_eq hl [(getCmd st self).Name] (by simp)]
      cases l with
      | nil => exact absurd rfl hne
      | cons b rest =>
        simp [List.dropLast_cons₂, List.reverse_cons, List.map_append]

/-- Claim C6 witness: the chain `C → B → A` (ids 2 → 1 → 0, `A` the root)
prompts exactly `A(B/C)>`, and the root `A` alone prompts `A>`. -/
theorem C6_prompt_witness :
    promptOf ⟨[{ Name := "A", childs := [1] },
      { Name := "B", childs := [2], parent := some 0 },
      { Name := "C", parent := some 1 }]⟩ 2 = some "A(B/C)>" ∧
    promptOf ⟨[{ Name := "A", childs := [1] },
      { Name := "B", childs := [2], parent := some 0 },
      { Name := "C", parent := some 1 }]⟩ 0 = some "A>" := by
  constructor
  · exact ((C6_prompt ⟨[{ Name := "A", childs := [1] },
      { Name := "B", childs := [2], parent := some 0 },
      { Name := "C", parent := some 1 }]⟩ 2 [2, 1, 0] (by decide)).2 (by decide)).trans
      (by decide)
  · exact ((C6_prompt ⟨[{ Name := "A", childs := [1] },
      { Name := "B", childs := [2], parent := some 0 },
      { Name := "C", parent := some 1 }]⟩ 0 [0] (by decide)).1 (by decide)).trans
      (by decide)

end Gocli

namespace Gocli

theorem getCmd_setCmd_self {st : State} {i : Nat} {c : Cmd} (h : i < st.nodes.length) :
    getCmd (setCmd st i c) i = c := by
  simp [getCmd, setCmd, List.getD, List.getElem?_set_self', h]

theorem getCmd_setCmd_ne {st : State} {i j : Nat} {c : Cmd} (h : i ≠ j) :
    getCmd (setCmd st i c) j = getCmd st j := by
  simp [getCmd, setCmd, List.getD, List.getElem?_set_ne h]

theorem setCmd_length {st : State} {i : Nat} {c : Cmd} :
    (setCmd st i c).nodes.length = st.nodes.length := by
  simp [setCmd]

/-- Claim C9: when the ancestor chain of the node entering `Execute` already
contains a help (resp. exit) node, the resolution block does not merely cache
the reference in `self.help` (resp. `self.exit`): it also calls `AddChild`,
which appends the inherited builtin to `self`'s own child list and overwrites
the builtin's `parent` back-reference to point at `self` (last write wins).
Every other node — in particular the ancestor whose child list already holds
the builtin — is untouched, so the shared builtin ends up in several parents'
child lists while its `parent` points at the menu most recently entered,
which is what makes `DefaultHelp` (which lists `cmd.parent`'s children) list
the current menu's children. -/
theorem C9_shared_builtin_mutation :
    (∀ (st : State) (self hh : Nat),
      findUp st (chainFuel st) self (fun c => (getCmd st c).help) = some (some hh) →
      hh ≠ self → self < st.nodes.length → hh < st.nodes.length →
      ∃ st2, resolveHelp st self = .okSt st2 ∧
        (getCmd st2 self).help = some hh ∧
        (getCmd st2 self).childs = (getCmd st self).childs ++ [hh] ∧
        (getCmd st2 hh).parent = some self ∧
        (∀ p, p ≠ self → p ≠ hh → getCmd st2 p = getCmd st p)) ∧
    (∀ (st : State) (self ee : Nat),
      findUp st (chainFuel st) self (fun c => (getCmd st c).exit) = some (some ee) →
      ee ≠ self → self < st.nodes.length → ee < st.nodes.length →
      ∃ st2, resolveExit st self = .okSt st2 ∧
        (getCmd st2 self).exit = some ee ∧
        (getCmd st2 self).childs = (getCmd st self).childs ++ [ee] ∧
        (getCmd st2 ee).parent = some self ∧
        (∀ p, p ≠ self → p ≠ ee → getCmd st2 p = getCmd st p)) := by
  constructor
  · intro st self hh hfind hne hself hhh
    unfold resolveHelp AddChild
    rw [hfind]
    simp only [if_neg hne]
    refine ⟨_, rfl, ?_, ?_, ?_, ?_⟩
    · rw [getCmd_setCmd_self (by rw [setCmd_length, setCmd_length]; exact hself),
        getCmd_setCmd_ne hne, getCmd_setCmd_self hself]
    · rw [getCmd_setCmd_self (by rw [setCmd_length, setCmd_length]; exact hself),
        getCmd_setCmd_ne hne, getCmd_setCmd_self hself]
    · rw [getCmd_setCmd_ne (Ne.symm hne),
        getCmd_setCmd_self (by rw [setCmd_length]; exact hhh)]
    · intro p hp1 hp2
      rw [getCmd_setCmd_ne (Ne.symm hp1), getCmd_setCmd_ne (Ne.symm hp2),
        getCmd_setCmd_ne (Ne.symm hp1)]
  · intro st self ee hfind hne hself hee
    unfold resolveExit AddChild
    rw [hfind]
    simp only [if_neg hne]
    refine ⟨_, rfl, ?_, ?_, ?_, ?_⟩
    · rw [getCmd_setCmd_self (by rw [setCmd_length, setCmd_length]; exact hself),
        getCmd_setCmd_ne hne, getCmd_setCmd_self hself]
    · rw [getCmd_setCmd_self (by rw [setCmd_length, setCmd_length]; exact hself),
        getCmd_setCmd_ne hne, getCmd_setCmd_self hself]
    · rw [getCmd_setCmd_ne (Ne.symm hne),
        getCmd_setCmd_self (by rw [setCmd_length]; exact hee)]
    · intro p hp1 hp2
      rw [getCmd_setCmd_ne (Ne.symm hp1), getCmd_setCmd_ne (Ne.symm hp2),
        getCmd_setCmd_ne (Ne.symm hp1)]

end Gocli

namespace Gocli

/-- Claim C9 witness: entering node 2 of `stHelpDemo`, which inherits help
node 1 from its parent 0, appends node 1 to node 2's child list and
re-points node 1's parent at node 2, leaving node 0 (whose child list still
holds node 1) untouched. -/
theorem C9_shared_builtin_mutation_witness :
    ∃ st2, resolveHelp stHelpDemo 2 = .okSt st2 ∧
      (getCmd st2 2).help = some 1 ∧
      (getCmd st2 2).childs = (getCmd stHelpDemo 2).childs ++ [1] ∧
      (getCmd st2 1).parent = some 2 ∧
      (∀ p, p ≠ 2 → p ≠ 1 → getCmd st2 p = getCmd stHelpDemo p) :=
  C9_shared_builtin_mutation.1 stHelpDemo 2 1 (by decide) (by decide) (by decide) (by decide)

/-- Claim C7: `Execute` refuses to start its loop — nothing is printed and no
line is consumed — returning the action-and-children configuration error when
the node has both a `Run` action and at least one child, and the distinct
neither-action-nor-children configuration error when, after the `Load` hook
has been applied exactly once (the final heap is exactly the once-loaded
`st1`), the node still has no `Run` and no children. -/
theorem C7_entry_validation (fuel : Nat) (st : State) (self : Nat) (ins : List ReadRes) :
    ((getCmd st self).Run.isSome ∧ (getCmd st self).childs ≠ [] →
      Execute (fuel + 1) st self ins =
        ⟨[], st, ins, .errMsg "Current command should not define an action and has childs"⟩) ∧
    (∀ st1, (getCmd st self).Run = none → doLoad st self = some st1 →
      (getCmd st1 self).Run = none → (getCmd st1 self).childs = [] →
      Execute (fuel + 1) st self ins =
        ⟨[], st1, ins, .errMsg "Current command has neither action and childs"⟩) := by
  constructor
  · intro h
    unfold Execute run
    rw [if_pos h]
  · intro st1 hRun hLoad hRun1 hchilds
    unfold Execute run
    rw [if_neg (by simp [hRun]), if_neg (by simp [hRun]), hLoad]
    simp only [hRun1, Option.isNone_none, hchilds, true_and, if_pos]

/-- Claim C7 witness: a node with both an action and a child fails with the
first error; a node whose `Load` ran but produced no children fails with the
second. -/
theorem C7_entry_validation_witness :
    Execute 3 ⟨[{ Name := "r", Run := some (.emit []), childs := [1] }, { Name := "c" }]⟩ 0 [] =
      ⟨[], ⟨[{ Name := "r", Run := some (.emit []), childs := [1] }, { Name := "c" }]⟩, [],
        .errMsg "Current command should not define an action and has childs"⟩ ∧
    Execute 3 ⟨[{ Name := "r", Load := some [] }]⟩ 0 [] =
      ⟨[], ⟨[{ Name := "r", Load := some [] }]⟩, [],
        .errMsg "Current command has neither action and childs"⟩ := by
  constructor
  · exact (C7_entry_validation 2 ⟨[{ Name := "r", Run := some (.emit []), childs := [1] },
      { Name := "c" }]⟩ 0 []).1 (by decide)
  · exact (C7_entry_validation 2 ⟨[{ Name := "r", Load := some [] }]⟩ 0 []).2
      ⟨[{ Name := "r", Load := some [] }]⟩ (by decide) (by decide) (by decide) (by decide)

end Gocli

namespace Gocli

set_option maxRecDepth 40000 in
/-- Claim C1 counterexample: the claim says a read failure other than a clean
end-of-input is returned by `Execute` as a terminating error, and a clean
end-of-input ends the loop with success.  Neither happens: on the failure
`boom` the code prints `error: boom` and keeps looping (here it then consumes
the next line `exit` and returns success, so the failure was not returned),
and on end-of-input (an exhausted source, every further read yielding EOF)
the loop never ends — within fuel 4 it is still running, having printed
`error: EOF` at every iteration. -/
theorem C1_counterexample :
    (Execute 6 stDemo 0 [.readErr "boom", .line "exit"]).res = .ok ∧
    (Execute 6 stDemo 0 [.readErr "boom", .line "exit"]).out =
      ["root>", "error: boom\n", "root>"] ∧
    (Execute 4 stDemo 0 []).res = .fuelOut ∧
    (Execute 4 stDemo 0 []).out =
      ["root>", "error: EOF\n", "root>", "error: EOF\n", "root>", "error: EOF\n"] := by
  refine ⟨by decide, by decide, by decide, by decide⟩

/-- One unfolding of the loop at positive fuel. -/
theorem execLoop_succ (fuel : Nat) (st : State) (self : Nat) (ins : List ReadRes) :
    execLoop (fuel + 1) st self ins =
      match loopStep st self ins with
      | .done o st1 rest res => ⟨o, st1, rest, res⟩
      | .again o st1 rest => ExecOut.prepend o (execLoop fuel st1 self rest)
      | .enter o st1 sub rest =>
        let rr := Execute fuel st1 sub rest
        match rr.res with
        | .ok => ExecOut.prepend (o ++ rr.out) (execLoop fuel rr.st self rr.ins)
        | _ => ExecOut.prepend o rr := rfl

/-- A loop iteration whose read yields an error prints the prompt and the
error message and continues. -/
theorem loopStep_readErr (st : State) (self : Nat) (e : String) (rest : List ReadRes)
    (pr : String) (h : promptOf st self = some pr) :
    loopStep st self (.readErr e :: rest) =
      .again [pr, "error: " ++ e ++ "\n"] st rest := by
  unfold loopStep headRead
  rw [h]

/-- A loop iteration whose line resolves to a child `sc` reaches the dispatch
decision on `sc`. -/
theorem loopStep_dispatch (st : State) (self : Nat) (s : String) (rest : List ReadRes)
    (pr tok : String) (args : List String) (sc : Nat)
    (h : promptOf st self = some pr) (ht : trimSpaces s ≠ "")
    (hp : parseArgs (trimSpaces s) = tok :: args) (hf : Find st self tok = some sc) :
    loopStep st self (.line s :: rest) =
      (if (getCmd st self).exit = some sc then .done [pr] st rest .ok
       else if (getCmd st sc).Run.isNone ∧ (getCmd st sc).Load.isNone ∧
           (getCmd st sc).childs = [] then
         .done [pr] st rest (.errMsg ("Missing action for " ++ (getCmd st sc).Name ++ " command"))
       else
         match (getCmd st sc).Run with
         | none => .enter [pr] st sc rest
         | some act =>
           match runAction act st sc args with
           | none => .done [pr] st rest .panicked
           | some outs => .again (pr :: outs) st rest) := by
  unfold loopStep headRead
  rw [h]
  simp only [hp, hf, if_neg ht]

/-- Claim C1 amended: a line-source failure — any failure, a clean
end-of-input included — is never surfaced to the caller of `Execute`: the
loop prints `error: <message>` to the output sink and continues with the next
iteration (so an unrecovering end-of-input makes the loop run forever); the
final result of `Execute` is never determined by a read failure. -/
theorem C1_read_error_amended (fuel : Nat) (st : State) (self : Nat) (e : String)
    (rest : List ReadRes) (pr : String) (h : promptOf st self = some pr) :
    execLoop (fuel + 1) st self (.readErr e :: rest) =
      ExecOut.prepend [pr, "error: " ++ e ++ "\n"] (execLoop fuel st self rest) := by
  rw [execLoop_succ, loopStep_readErr st self e rest pr h]

set_option maxRecDepth 40000 in
/-- Claim C1 amended witness: one loop iteration of the root of `stDemo` on a
read failure `boom` prints the prompt and the error and continues. -/
theorem C1_read_error_amended_witness :
    execLoop 3 stDemo 0 [.readErr "boom", .line "x"] =
      ExecOut.prepend ["root>", "error: " ++ "boom" ++ "\n"]
        (execLoop 2 stDemo 0 [.line "x"]) :=
  C1_read_error_amended 2 stDemo 0 "boom" [.line "x"] "root>" (by decide)

end Gocli

namespace Gocli

/-- Claim C2: (1) a loop iteration whose first token resolves to a child with
no `Run`, no `Load` and no children returns the fatal
`Missing action for <name> command` error from `Execute` — the loop ends with
that error as the result, nothing is printed beyond the prompt; (2) when a
nested `Execute` (entered for a sub-menu) returns an error, the enclosing
loop returns exactly that error — this is the inductive step that propagates
a missing-action error unchanged through every enclosing recursive `Execute`
call, terminating the whole session. -/
theorem C2_missing_action_error :
    (∀ (fuel : Nat) (st : State) (self : Nat) (s pr tok : String) (args : List String)
        (sc : Nat) (rest : List ReadRes),
      promptOf st self = some pr →
      trimSpaces s ≠ "" →
      parseArgs (trimSpaces s) = tok :: args →
      Find st self tok = some sc →
      (getCmd st self).exit ≠ some sc →
      (getCmd st sc).Run = none →
      (getCmd st sc).Load = none →
      (getCmd st sc).childs = [] →
      execLoop (fuel + 1) st self (.line s :: rest) =
        ⟨[pr], st, rest, .errMsg ("Missing action for " ++ (getCmd st sc).Name ++ " command")⟩) ∧
    (∀ (fuel : Nat) (st : State) (self : Nat) (s pr tok m : String) (args : List String)
        (sc : Nat) (rest : List ReadRes),
      promptOf st self = some pr →
      trimSpaces s ≠ "" →
      parseArgs (trimSpaces s) = tok :: args →
      Find st self tok = some sc →
      (getCmd st self).exit ≠ some sc →
      (getCmd st sc).Run = none →
      ¬((getCmd st sc).Load.isNone ∧ (getCmd st sc).childs = []) →
      (Execute fuel st sc rest).res = .errMsg m →
      execLoop (fuel + 1) st self (.line s :: rest) =
          ExecOut.prepend [pr] (Execute fuel st sc rest) ∧
        (execLoop (fuel + 1) st self (.line s :: rest)).res = .errMsg m) := by
  constructor
  · intro fuel st self s pr tok args sc rest h ht hp hf hexit hrun hload hch
    rw [execLoop_succ, loopStep_dispatch st self s rest pr tok args sc h ht hp hf,
      if_neg hexit, if_pos ⟨by simp [hrun], by simp [hload], hch⟩]
  · intro fuel st self s pr tok m args sc rest h ht hp hf hexit hrun hmiss hres
    have step : execLoop (fuel + 1) st self (.line s :: rest) =
        ExecOut.prepend [pr] (Execute fuel st sc rest) := by
      rw [execLoop_succ, loopStep_dispatch st self s rest pr tok args sc h ht hp hf,
        if_neg hexit, if_neg (fun hc => hmiss ⟨hc.2.1, hc.2.2⟩), hrun]
      simp only [hres]
    exact ⟨step, by rw [step]; simp [ExecOut.prepend, hres]⟩

/-- Claim C2 witness: in a heap where the root's child `bad` has no action,
no hook and no children, typing `bad` ends the loop with the missing-action
error. -/
theorem C2_missing_action_error_witness :
    execLoop 1 ⟨[{ Name := "r", childs := [1] }, { Name := "bad", parent := some 0 }]⟩ 0
        [.line "bad"] =
      ⟨["r>"], ⟨[{ Name := "r", childs := [1] }, { Name := "bad", parent := some 0 }]⟩, [],
        .errMsg "Missing action for bad command"⟩ :=
  (C2_missing_action_error.1 0 ⟨[{ Name := "r", childs := [1] },
      { Name := "bad", parent := some 0 }]⟩ 0 "bad" "r>" "bad" [] 1 []
    (by decide) (by decide) (by decide) (by decide) (by decide) (by decide) (by decide)
    (by decide)).trans (by decide)

/-- Claim C3: (1) a loop iteration whose first token resolves to the node
cached in this loop's `exit` pointer (owned or inherited) terminates exactly
this loop, returning success with the rest of the input unconsumed; (2) when
the first token resolves to a sub-menu (a child with no `Run`) and the nested
`Execute` returns normally (its own exit command was used), the parent loop
continues with its next iteration on the input the nested loop left over —
it does not also exit; (3) when the nested `Execute` returns an error, the
parent loop returns it upward unchanged. -/
theorem C3_exit_and_submenu :
    (∀ (fuel : Nat) (st : State) (self : Nat) (s pr tok : String) (args : List String)
        (sc : Nat) (rest : List ReadRes),
      promptOf st self = some pr →
      trimSpaces s ≠ "" →
      parseArgs (trimSpaces s) = tok :: args →
      Find st self tok = some sc →
      (getCmd st self).exit = some sc →
      execLoop (fuel + 1) st self (.line s :: rest) = ⟨[pr], st, rest, .ok⟩) ∧
    (∀ (fuel : Nat) (st : State) (self : Nat) (s pr tok : String) (args : List String)
        (sc : Nat) (rest : List ReadRes),
      promptOf st self = some pr →
      trimSpaces s ≠ "" →
      parseArgs (trimSpaces s) = tok :: args →
      Find st self tok = some sc →
      (getCmd st self).exit ≠ some sc →
      (getCmd st sc).Run = none →
      ¬((getCmd st sc).Load.isNone ∧ (getCmd st sc).childs = []) →
      (Execute fuel st sc rest).res = .ok →
      execLoop (fuel + 1) st self (.line s :: rest) =
        ExecOut.prepend (pr :: (Execute fuel st sc rest).out)
          (execLoop fuel (Execute fuel st sc rest).st self (Execute fuel st sc rest).ins)) ∧
    (∀ (fuel : Nat) (st : State) (self : Nat) (s pr tok m : String) (args : List String)
        (sc : Nat) (rest : List ReadRes),
      promptOf st self = some pr →
      trimSpaces s ≠ "" →
      parseArgs (trimSpaces s) = tok :: args →
      Find st self tok = some sc →
      (getCmd st self).exit ≠ some sc →
      (getCmd st sc).Run = none →
      ¬((getCmd st sc).Load.isNone ∧ (getCmd st sc).childs = []) →
      (Execute fuel st sc rest).res = .errMsg m →
      (execLoop (fuel + 1) st self (.line s :: rest)).res = .errMsg m) := by
  refine ⟨?_, ?_, ?_⟩
  · intro fuel st self s pr tok args sc rest h ht hp hf hexit
    rw [execLoop_succ, loopStep_dispatch st self s rest pr tok args sc h ht hp hf,
      if_pos hexit]
  · intro fuel st self s pr tok args sc rest h ht hp hf hexit hrun hmiss hres
    rw [execLoop_succ, loopStep_dispatch st self s rest pr tok args sc h ht hp hf,
      if_neg hexit, if_neg (fun hc => hmiss ⟨hc.2.1, hc.2.2⟩), hrun]
    simp only [hres]
    rfl
  · intro fuel st self s pr tok m args sc rest h ht hp hf hexit hrun hmiss hres
    rw [execLoop_succ, loopStep_dispatch st self s rest pr tok args sc h ht hp hf,
      if_neg hexit, if_neg (fun hc => hmiss ⟨hc.2.1, hc.2.2⟩), hrun]
    simp only [hres]
    simp [ExecOut.prepend, hres]

set_option maxRecDepth 40000 in
/-- Claim C3 witness: in `stHelpDemo` extended with an exit node, typing the
exit name ends the loop with success, leaving the rest of the input. -/
theorem C3_exit_and_submenu_witness :
    execLoop 1 ⟨[{ Name := "r", childs := [1], exit := some 1 },
        { Name := "exit", parent := some 0 }]⟩ 0 [.line "exit", .line "zzz"] =
      ⟨["r>"], ⟨[{ Name := "r", childs := [1], exit := some 1 },
        { Name := "exit", parent := some 0 }]⟩, [.line "zzz"], .ok⟩ :=
  C3_exit_and_submenu.1 0 ⟨[{ Name := "r", childs := [1], exit := some 1 },
      { Name := "exit", parent := some 0 }]⟩ 0 "exit" "r>" "exit" [] 1 [.line "zzz"]
    (by decide) (by decide) (by decide) (by decide) (by decide)

end Gocli

namespace Gocli

/-- A loop iteration whose first token matches no child prints the
invalid-command message (naming the resolved help node) and continues. -/
theorem loopStep_unknown (st : State) (self : Nat) (s : String) (rest : List ReadRes)
    (pr tok : String) (args : List String) (hn : Nat)
    (h : promptOf st self = some pr) (ht : trimSpaces s ≠ "")
    (hp : parseArgs (trimSpaces s) = tok :: args) (hf : Find st self tok = none)
    (hh : (getCmd st self).help = some hn) :
    loopStep st self (.line s :: rest) =
      .again [pr, "Invalid command, type " ++ (getCmd st hn).Name ++
        " for available commands\n"] st rest := by
  unfold loopStep headRead
  rw [h]
  simp only [hp, hf, hh, if_neg ht]

/-- A loop iteration that resolves to a child carrying a `Run` action invokes
the action and continues the loop with the action's output printed. -/
theorem loopStep_run (st : State) (self : Nat) (s : String) (rest : List ReadRes)
    (pr tok : String) (args : List String) (sc : Nat) (act : RunAct) (outs : List String)
    (h : promptOf st self = some pr) (ht : trimSpaces s ≠ "")
    (hp : parseArgs (trimSpaces s) = tok :: args) (hf : Find st self tok = some sc)
    (hexit : (getCmd st self).exit ≠ some sc) (hrun : (getCmd st sc).Run = some act)
    (hra : runAction act st sc args = some outs) :
    loopStep st self (.line s :: rest) = .again (pr :: outs) st rest := by
  rw [loopStep_dispatch st self s rest pr tok args sc h ht hp hf,
    if_neg hexit, if_neg (by simp [hrun]), hrun]
  simp only [hra]

/-- `DefaultHelp` invoked with more than one argument writes only the
too-many-parameters message. -/
theorem DefaultHelp_overflow (st : State) (cmd : Nat) (a1 a2 : String)
    (more : List String) :
    DefaultHelp st cmd (a1 :: a2 :: more) =
      some ["The help command cannot take more than 1 parameter\n"] := by
  unfold DefaultHelp
  rw [if_pos (by simp only [List.length_cons]; omega)]

/-- `DefaultHelp` invoked with one argument naming no sibling writes only the
cannot-be-found message. -/
theorem DefaultHelp_notFound (st : State) (cmd pp : Nat) (x : String)
    (hpar : (getCmd st cmd).parent = some pp) (hfind : Find st pp x = none) :
    DefaultHelp st cmd [x] = some ["The command " ++ x ++ " cannot be found"] := by
  unfold DefaultHelp
  rw [if_neg (by simp), if_neg (by simp), hpar]
  have hx : ([x].headD "") = x := rfl
  rw [hx]
  simp only [hfind]

/-- Claim C8: the three user-input error cases only write a message and let
the loop continue — `Execute`'s result is never produced by them.  (1) An
unknown first token prints the invalid-command message and re-prompts.
(2) More than one argument passed to the (default-help) command prints the
too-many-parameters message and re-prompts.  (3) A help lookup naming a
sibling that does not exist prints the cannot-be-found message and
re-prompts.  In each case the loop outcome is exactly the message followed by
the continuation of the loop on the remaining input, so such input never
terminates the session and never becomes an error result. -/
theorem C8_user_input_errors :
    (∀ (fuel : Nat) (st : State) (self : Nat) (s pr tok : String) (args : List String)
        (hn : Nat) (rest : List ReadRes),
      promptOf st self = some pr →
      trimSpaces s ≠ "" →
      parseArgs (trimSpaces s) = tok :: args →
      Find st self tok = none →
      (getCmd st self).help = some hn →
      execLoop (fuel + 1) st self (.line s :: rest) =
        ExecOut.prepend [pr, "Invalid command, type " ++ (getCmd st hn).Name ++
          " for available commands\n"] (execLoop fuel st self rest)) ∧
    (∀ (fuel : Nat) (st : State) (self : Nat) (s pr tok a1 a2 : String)
        (more : List String) (hc : Nat) (rest : List ReadRes),
      promptOf st self = some pr →
      trimSpaces s ≠ "" →
      parseArgs (trimSpaces s) = tok :: a1 :: a2 :: more →
      Find st self tok = some hc →
      (getCmd st self).exit ≠ some hc →
      (getCmd st hc).Run = some .defaultHelp →
      execLoop (fuel + 1) st self (.line s :: rest) =
        ExecOut.prepend [pr, "The help command cannot take more than 1 parameter\n"]
          (execLoop fuel st self rest)) ∧
    (∀ (fuel : Nat) (st : State) (self : Nat) (s pr tok x : String) (hc pp : Nat)
        (rest : List ReadRes),
      promptOf st self = some pr →
      trimSpaces s ≠ "" →
      parseArgs (trimSpaces s) = [tok, x] →
      Find st self tok = some hc →
      (getCmd st self).exit ≠ some hc →
      (getCmd st hc).Run = some .defaultHelp →
      (getCmd st hc).parent = some pp →
      Find st pp x = none →
      execLoop (fuel + 1) st self (.line s :: rest) =
        ExecOut.prepend [pr, "The command " ++ x ++ " cannot be found"]
          (execLoop fuel st self rest)) := by
  refine ⟨?_, ?_, ?_⟩
  · intro fuel st self s pr tok args hn rest h ht hp hf hh
    rw [execLoop_succ, loopStep_unknown st self s rest pr tok args hn h ht hp hf hh]
  · intro fuel st self s pr tok a1 a2 more hc rest h ht hp hf hexit hrun
    rw [execLoop_succ, loopStep_run st self s rest pr tok (a1 :: a2 :: more) hc
      .defaultHelp ["The help command cannot take more than 1 parameter\n"] h ht hp hf
      hexit hrun (DefaultHelp_overflow st hc a1 a2 more)]
  · intro fuel st self s pr tok x hc pp rest h ht hp hf hexit hrun hpar hfind2
    rw [execLoop_succ, loopStep_run st self s rest pr tok [x] hc
      .defaultHelp ["The command " ++ x ++ " cannot be found"] h ht hp hf
      hexit hrun (DefaultHelp_notFound st hc pp x hpar hfind2)]

set_option maxRecDepth 40000 in
/-- Claim C8 witness: on a root whose help node is resolved, an unknown
command, `help` with two arguments, and `help` naming a missing sibling each
print their message and continue the loop. -/
theorem C8_user_input_errors_witness :
    execLoop 1 ⟨[{ Name := "r", childs := [1], help := some 1 },
        { Name := "help", parent := some 0, Run := some .defaultHelp }]⟩ 0 [.line "zzz"] =
      ExecOut.prepend ["r>", "Invalid command, type help for available commands\n"]
        (execLoop 0 ⟨[{ Name := "r", childs := [1], help := some 1 },
          { Name := "help", parent := some 0, Run := some .defaultHelp }]⟩ 0 []) ∧
    execLoop 1 ⟨[{ Name := "r", childs := [1], help := some 1 },
        { Name := "help", parent := some 0, Run := some .defaultHelp }]⟩ 0
        [.line "help a b"] =
      ExecOut.prepend ["r>", "The help command cannot take more than 1 parameter\n"]
        (execLoop 0 ⟨[{ Name := "r", childs := [1], help := some 1 },
          { Name := "help", parent := some 0, Run := some .defaultHelp }]⟩ 0 []) ∧
    execLoop 1 ⟨[{ Name := "r", childs := [1], help := some 1 },
        { Name := "help", parent := some 0, Run := some .defaultHelp }]⟩ 0
        [.line "help zz"] =
      ExecOut.prepend ["r>", "The command zz cannot be found"]
        (execLoop 0 ⟨[{ Name := "r", childs := [1], help := some 1 },
          { Name := "help", parent := some 0, Run := some .defaultHelp }]⟩ 0 []) := by
  refine ⟨?_, ?_, ?_⟩
  · exact (C8_user_input_errors.1 0 ⟨[{ Name := "r", childs := [1], help := some 1 },
      { Name := "help", parent := some 0, Run := some .defaultHelp }]⟩ 0 "zzz" "r>" "zzz"
      [] 1 [] (by decide) (by decide) (by decide) (by decide) (by decide)).trans (by decide)
  · exact C8_user_input_errors.2.1 0 ⟨[{ Name := "r", childs := [1], help := some 1 },
      { Name := "help", parent := some 0, Run := some .defaultHelp }]⟩ 0 "help a b" "r>"
      "help" "a" "b" [] 1 [] (by decide) (by decide) (by decide) (by decide) (by decide)
      (by decide)
  · exact C8_user_input_errors.2.2 0 ⟨[{ Name := "r", childs := [1], help := some 1 },
      { Name := "help", parent := some 0, Run := some .defaultHelp }]⟩ 0 "help zz" "r>"
      "help" "zz" 1 0 [] (by decide) (by decide) (by decide) (by decide) (by decide)
      (by decide) (by decide) (by decide)

end Gocli
